import Mathlib

/-!
Verification development for the Private-HTTPS-server repository.

The definitions below are a shallow embedding of the request-handling code:
`translate_path`, the Range-header parsing and resolution of both handler
versions (`src/server.py`, the current one, and `src/serve/server.py`, the
legacy one), the observable outcome of `do_GET`, and the locking protocol of
`FileTransferLog._log_transfer` (`src/serve/logger.py`).
-/

namespace PyStr

/-- Python `str.split(sep)` for a one-character separator: splits on every
occurrence, so the result has one more element than the number of separator
occurrences, and `"".split(sep) == [""]`. -/
def splitAllAux (sep : Char) : List Char → List Char → List (List Char)
  | [], acc => [acc.reverse]
  | c :: rest, acc =>
    if c = sep then acc.reverse :: splitAllAux sep rest []
    else splitAllAux sep rest (c :: acc)

def splitAll (s : String) (sep : Char) : List String :=
  (splitAllAux sep s.data []).map String.mk

/-- Python `str.split(sep, 1)`: at most one split, at the first occurrence. -/
def splitOnceAux (sep : Char) : List Char → List Char → List (List Char)
  | [], acc => [acc.reverse]
  | c :: rest, acc =>
    if c = sep then [acc.reverse, rest]
    else splitOnceAux sep rest (c :: acc)

def splitOnce (s : String) (sep : Char) : List String :=
  (splitOnceAux sep s.data []).map String.mk

/-- Python `str.strip(c)` for a single strip character: removes every leading
and trailing copy of that character. -/
def stripChar (c : Char) (s : String) : String :=
  String.mk (((s.data.dropWhile (· = c)).reverse.dropWhile (· = c)).reverse)

def digitVal (c : Char) : Option Nat :=
  if '0' ≤ c ∧ c ≤ '9' then some (c.toNat - 48) else none

def digitsVal : List Char → Option Nat → Option Nat
  | [], acc => acc
  | c :: rest, acc =>
    match digitVal c, acc with
    | some d, some n => digitsVal rest (some (10 * n + d))
    | some d, none => digitsVal rest (some d)
    | none, _ => none

/-- Python `int(s)` restricted to the strings this server can feed it: the
argument is a piece of a split on the minus sign, so a minus sign cannot
occur in it; spaces are stripped, an optional leading plus sign is accepted,
and a nonempty run of decimal digits is required.  `none` models the
`ValueError` raised by `int`. -/
def pyIntNN (s : String) : Option Nat :=
  let t := ((s.data.dropWhile (· = ' ')).reverse.dropWhile (· = ' ')).reverse
  let t := match t with
    | '+' :: rest => rest
    | rest => rest
  digitsVal t none

def hexVal (c : Char) : Option Nat :=
  if '0' ≤ c ∧ c ≤ '9' then some (c.toNat - 48)
  else if 'a' ≤ c ∧ c ≤ 'f' then some (c.toNat - 87)
  else if 'A' ≤ c ∧ c ≤ 'F' then some (c.toNat - 55)
  else none

/-- `urllib.parse.unquote` on ASCII input: a percent sign followed by two hex
digits decodes to the corresponding character; an invalid escape is left
unchanged. -/
def unquoteAux : List Char → List Char
  | '%' :: a :: b :: rest =>
    match hexVal a, hexVal b with
    | some x, some y => Char.ofNat (16 * x + y) :: unquoteAux rest
    | _, _ => '%' :: unquoteAux (a :: b :: rest)
  | c :: rest => c :: unquoteAux rest
  | [] => []

def unquote (s : String) : String := String.mk (unquoteAux s.data)

/-- The `.path` component of `urllib.parse.urlparse` for a request target that
starts with a slash: everything before the query or fragment delimiter. -/
def urlPath (s : String) : String :=
  String.mk (s.data.takeWhile (fun c => ¬ (c = '?' ∨ c = '#')))

def startsWithSlash (s : String) : Bool :=
  match s.data with
  | '/' :: _ => true
  | _ => false

def endsWithSlash (s : String) : Bool :=
  match s.data.reverse with
  | '/' :: _ => true
  | _ => false

/-- POSIX `os.path.join` on two components: an absolute second component
replaces the first; otherwise the separator is inserted unless the first
component is empty or already ends with it. -/
def pyJoin2 (a b : String) : String :=
  if startsWithSlash b then b
  else if a = "" ∨ endsWithSlash a then a ++ b
  else a ++ "/" ++ b

def lastIdxOf (c : Char) (cs : List Char) : Option Nat :=
  match cs.reverse.findIdx? (· = c) with
  | some j => some (cs.length - 1 - j)
  | none => none

/-- The extension component of `os.path.splitext`: the suffix starting at the
last dot of the basename, unless every character of the basename before that
dot is itself a dot (so dotfiles have no extension). -/
def splitextExt (p : String) : String :=
  let cs := p.data
  let sepIdx : Int := match lastIdxOf '/' cs with
    | some i => (i : Int)
    | none => -1
  let dotIdx : Int := match lastIdxOf '.' cs with
    | some i => (i : Int)
    | none => -1
  if sepIdx < dotIdx then
    let nameStart := (sepIdx + 1).toNat
    let dotN := dotIdx.toNat
    if ((cs.drop nameStart).take (dotN - nameStart)).all (· = '.') then ""
    else String.mk (cs.drop dotN)
  else ""

/-- `os.path.basename`: everything after the last slash. -/
def pyBasename (p : String) : String := (splitAll p '/').getLastD ""

/-- Whether `needle` occurs as a contiguous run inside the character list. -/
def subListB (needle : List Char) : List Char → Bool
  | [] => needle.isEmpty
  | c :: rest => needle.isPrefixOf (c :: rest) || subListB needle rest

/-- Whether `needle` occurs as a substring of `hay`. -/
def strContains (hay needle : String) : Bool := subListB needle.data hay.data

end PyStr

namespace Server

open PyStr

/-- Filesystem resolution of a path string, as the operating system performs
it when the path is opened: split on slashes, drop empty and `.` segments,
and let `..` pop the previous segment. -/
def normAux : List String → List String → List String
  | [], acc => acc.reverse
  | s :: rest, acc =>
    if s = "" ∨ s = "." then normAux rest acc
    else if s = ".." then normAux rest acc.tail
    else normAux rest (s :: acc)

def resolveSegs (p : String) : List String := normAux (splitAll p '/') []

/-- Whether the filesystem location denoted by `p` lies inside the directory
denoted by `root`. -/
def withinRootB (root p : String) : Bool :=
  (resolveSegs root).isPrefixOf (resolveSegs p)

/-- `TokenRangeHTTPRequestHandler.translate_path` (identical in
`src/server.py` and `src/serve/server.py`), with the process token and
working directory as parameters. -/
def translatePath (token cwd : String) (path : String) : String :=
  let parsedPath := urlPath path
  let pathParts := splitOnce (stripChar '/' parsedPath) '/'
  match pathParts with
  | [p0, p1] =>
    if p0 = token then
      let decodedPath := unquote p1
      let resourceParts := splitOnce decodedPath '/'
      if resourceParts.headD "" = "resources" then
        let newPath := "/" ++ resourceParts.getD 1 ""
        pyJoin2 (pyJoin2 cwd "resources") (stripChar '/' newPath)
      else
        pyJoin2 (pyJoin2 cwd "public_html") (stripChar '/' decodedPath)
    else ""
  | [p0] =>
    if p0 = token then pyJoin2 (pyJoin2 cwd "public_html") "" else ""
  | _ => ""

/-- `int(parts[0]) if parts[0] else None`: an empty piece is `None`, and a
non-numeric nonempty piece is a `ValueError` (`none`). -/
def pyBound (p : String) : Option (Option Nat) :=
  if p = "" then some none else (pyIntNN p).map some

/-- The current handler's reading of an already split Range spec
(`src/server.py`, lines 235-237): `start = int(parts[0]) if parts[0] else
None` and `end = int(parts[1]) if len(parts) > 1 and parts[1] else None`.
The empty-list case cannot arise from a split but would be the caught
`IndexError`. -/
def parseSpecSrc : List String → Option (Option Nat × Option Nat)
  | [] => none
  | [p0] =>
    match pyBound p0 with
    | some a => some (a, none)
    | none => none
  | p0 :: p1 :: _ =>
    match pyBound p0, pyBound p1 with
    | some a, some b => some (a, b)
    | _, _ => none

/-- Range-header parsing of the current handler (`src/server.py`, lines
230-242): split on every equals sign and unpack into exactly two pieces (a
`ValueError` otherwise), split the spec on every minus sign, and read the
bounds.  `none` models the `ValueError`/`IndexError` answered with 400. -/
def parseRangeSrc (h : String) : Option (Option Nat × Option Nat) :=
  match splitAll h '=' with
  | [_, spec] => parseSpecSrc (splitAll spec '-')
  | _ => none

/-- Outcome of the legacy handler's Range parsing: `valueErr` is answered
with 400, while `indexErr` is an uncaught exception (the legacy handler
catches only `ValueError`). -/
inductive ServeParse
  | ok (s : Nat) (e : Option Nat)
  | valueErr
  | indexErr
deriving DecidableEq, Repr

/-- The legacy handler's reading of an already split Range spec
(`src/serve/server.py`, lines 205-209):
`(int(self.range[0]), int(self.range[1]) if self.range[1] else None)`,
evaluated left to right, so a non-numeric or empty first piece raises the
caught `ValueError` while a missing second piece raises an uncaught
`IndexError`. -/
def parseSpecServe : List String → ServeParse
  | [] => .indexErr
  | [p0] =>
    match pyIntNN p0 with
    | none => .valueErr
    | some _ => .indexErr
  | p0 :: p1 :: _ =>
    match pyIntNN p0 with
    | none => .valueErr
    | some s =>
      if p1 = "" then .ok s none
      else
        match pyIntNN p1 with
        | none => .valueErr
        | some e => .ok s (some e)

/-- Range-header parsing of the legacy handler (`src/serve/server.py`, lines
203-219): `range_header.split("=")[1].split("-")`, so a header without an
equals sign raises an uncaught `IndexError`. -/
def parseRangeServe (h : String) : ServeParse :=
  match (splitAll h '=').get? 1 with
  | none => .indexErr
  | some spec => parseSpecServe (splitAll spec '-')

inductive RangeOutcome
  | full
  | unsat
  | sat (s e : Int)
deriving DecidableEq, Repr

/-- Range validation of the current handler (`src/server.py`, lines 261-273)
against a file of `L` bytes: a missing start with a present end is a suffix
request (`start = max(0, L - end)`, `end = L - 1`), a missing end is set to
`L - 1`, and afterwards `end >= L` or `start > end` is unsatisfiable. -/
def resolveSrc (s0 e0 : Option Nat) (L : Nat) : RangeOutcome :=
  match s0, e0 with
  | none, none => .full
  | none, some e =>
    let s' : Int := max 0 ((L : Int) - (e : Int))
    let e' : Int := (L : Int) - 1
    if e' ≥ (L : Int) ∨ s' > e' then .unsat else .sat s' e'
  | some s, none =>
    let e' : Int := (L : Int) - 1
    if e' ≥ (L : Int) ∨ (s : Int) > e' then .unsat else .sat (s : Int) e'
  | some s, some e =>
    if (e : Int) ≥ (L : Int) ∨ (s : Int) > (e : Int) then .unsat
    else .sat (s : Int) (e : Int)

/-- Range validation of the legacy handler (`src/serve/server.py`, lines
256-262): `if not end or end >= fs.st_size: end = fs.st_size - 1` (note that
an explicit end of 0 is falsy and so treated as absent), then
`if start > fs.st_size or start > end` is unsatisfiable (`none`). -/
def resolveServe (s : Nat) (e0 : Option Nat) (L : Nat) : Option (Int × Int) :=
  let e' : Int :=
    match e0 with
    | none => (L : Int) - 1
    | some e => if e = 0 ∨ (e : Int) ≥ (L : Int) then (L : Int) - 1 else (e : Int)
  if (s : Int) > (L : Int) ∨ (s : Int) > e' then none else some ((s : Int), e')

/-- The byte window `f.seek(start); f.read(end - start + 1)` of a file whose
bytes are `content`. -/
def sliceBytes (content : List Nat) (s e : Int) : List Nat :=
  (content.drop s.toNat).take (e - s + 1).toNat

structure ServerEnv where
  token : String
  cwd : String
  url : String
  downloadExtensions : List String

/-- The filesystem as the handler observes it: directory test, presence of
`index.html` in a directory listing, and the readable byte content of a path
(`none` models the `OSError` of a failed `open`). -/
structure Fs where
  isDir : String → Bool
  hasIndexHtml : String → Bool
  file : String → Option (List Nat)

/-- One row handed to `FileTransferLog.log_transfer`. -/
structure LogEvent where
  path : String
  status : String
  startByte : Option Int := none
  endByte : Option Int := none
deriving DecidableEq, Repr

/-- The externally observable outcome of one `do_GET` call: status code, the
headers the claims mention, the file bytes written as the body, the log
events submitted, whether any filesystem call was made, and whether an
uncaught exception escaped the handler. -/
structure HttpResult where
  status : Nat
  location : Option String := none
  contentRange : Option (Int × Int × Int) := none
  contentLength : Option Int := none
  contentDisposition : Option String := none
  contentDispositionFile : Option String := none
  acceptRanges : Bool := false
  body : List Nat := []
  logs : List LogEvent := []
  fsTouched : Bool := false
  crashed : Bool := false
deriving DecidableEq, Repr

/-- The `Content-Disposition` header added by the overridden `end_headers` on
every response, computed from the extension of the raw request path. -/
def cdOf (env : ServerEnv) (reqPath : String) : Option String :=
  if env.downloadExtensions.contains (splitextExt reqPath) then
    some (pyBasename reqPath)
  else none

/-- `send_error(404)` as both overridden `send_error` methods treat it (the
current handler's `self.root` is initialized to `False` and never updated):
a 302 redirect to the configured URL. -/
def err302 (env : ServerEnv) (reqPath : String) (logs : List LogEvent)
    (touched : Bool) : HttpResult :=
  { status := 302, location := some env.url, contentDisposition := cdOf env reqPath,
    logs := logs, fsTouched := touched }

/-- `send_error` for a non-404 code: the standard error response. -/
def plainError (env : ServerEnv) (reqPath : String) (code : Nat)
    (logs : List LogEvent) (touched : Bool) : HttpResult :=
  { status := code, contentDisposition := cdOf env reqPath,
    logs := logs, fsTouched := touched }

/-- The current handler's `do_GET` from the directory check onwards
(`src/server.py`, lines 244-346), after the path has been authorized and the
Range header parsed into `s0`/`e0`. -/
def srcServeFile (env : ServerEnv) (fs : Fs) (reqPath fsPath : String)
    (s0 e0 : Option Nat) : HttpResult :=
  if fs.isDir fsPath ∧ ¬ fs.hasIndexHtml fsPath then
    { status := 200, contentDisposition := cdOf env reqPath, fsTouched := true }
  else
    let path2 := if fs.isDir fsPath then pyJoin2 fsPath "index.html" else fsPath
    match fs.file path2 with
    | none => err302 env reqPath [] true
    | some content =>
      let L := content.length
      match resolveSrc s0 e0 L with
      | .full =>
        { status := 200, contentLength := some (L : Int), acceptRanges := true,
          contentDisposition := cdOf env reqPath,
          contentDispositionFile :=
            if env.downloadExtensions.contains (splitextExt path2) then
              some (pyBasename path2)
            else none,
          body := content,
          logs := [{ path := path2, status := "start" },
                   { path := path2, status := "complete" }],
          fsTouched := true }
      | .unsat => plainError env reqPath 416 [] true
      | .sat s e =>
        { status := 206, contentRange := some (s, e, (L : Int)),
          contentLength := some (e - s + 1), acceptRanges := true,
          contentDisposition := cdOf env reqPath,
          body := sliceBytes content s e,
          logs := [{ path := reqPath, status := "range-start", startByte := some s,
                     endByte := if e = 0 then none else some e },
                   { path := path2, status := "range-complete", startByte := some s,
                     endByte := some e }],
          fsTouched := true }

/-- `do_GET` of the current handler (`src/server.py`, lines 208-346): path
authorization first (an empty translation is answered 404, hence 302), then
Range parsing (a parse failure is answered 400 before any filesystem call),
then the file is resolved and served. -/
def doGetSrc (env : ServerEnv) (fs : Fs) (reqPath : String)
    (rangeHeader : Option String) : HttpResult :=
  let fsPath := translatePath env.token env.cwd reqPath
  if fsPath = "" then err302 env reqPath [] false
  else
    match rangeHeader with
    | none => srcServeFile env fs reqPath fsPath none none
    | some h =>
      match parseRangeSrc h with
      | none => plainError env reqPath 400 [] false
      | some (s0, e0) => srcServeFile env fs reqPath fsPath s0 e0

/-- The legacy handler's `do_GET` after Range parsing (`src/serve/server.py`,
lines 221-298).  A directory containing `index.html` reaches
`os.fstat(f.fileno())` with `f` unbound and crashes with a `NameError`; a
full-transfer `start` event is logged before `open` is even attempted. -/
def serveRest (env : ServerEnv) (fs : Fs) (reqPath fsPath : String)
    (range0 : Option (Nat × Option Nat)) (logs0 : List LogEvent) : HttpResult :=
  if fsPath = "" then err302 env reqPath logs0 false
  else if fs.isDir fsPath then
    if fs.hasIndexHtml fsPath then
      { status := 0, crashed := true, logs := logs0, fsTouched := true }
    else
      { status := 200, contentDisposition := cdOf env reqPath, logs := logs0,
        fsTouched := true }
  else
    let logs1 := logs0 ++
      (if range0.isNone then [{ path := fsPath, status := "start" : LogEvent }] else [])
    match fs.file fsPath with
    | none => err302 env reqPath logs1 true
    | some content =>
      let L := content.length
      match range0 with
      | some (s, e0) =>
        match resolveServe s e0 L with
        | none => plainError env reqPath 416 logs1 true
        | some (s', e') =>
          { status := 206, contentRange := some (s', e', (L : Int)),
            contentLength := some (e' - s' + 1), acceptRanges := true,
            contentDisposition := cdOf env reqPath,
            body := sliceBytes content s' e',
            logs := logs1 ++ [{ path := fsPath, status := "range-complete",
                                startByte := some s', endByte := some e' }],
            fsTouched := true }
      | none =>
        { status := 200, contentLength := some (L : Int), acceptRanges := true,
          contentDisposition := cdOf env reqPath, body := content,
          logs := logs1 ++ [{ path := fsPath, status := "complete" : LogEvent }],
          fsTouched := true }

/-- The `end_byte` recorded by the legacy handler's `range-start` event:
`self.range[1] if self.range[1] else None`, so both a missing and a zero end
bound are stored as NULL. -/
def serveEndLog (e0 : Option Nat) : Option Int :=
  match e0 with
  | some v => if v = 0 then none else some (v : Int)
  | none => none

/-- `do_GET` of the legacy handler (`src/serve/server.py`, lines 190-298):
the Range header is parsed (and a `range-start` event logged with the raw
request path) before the translated path is even checked. -/
def doGetServe (env : ServerEnv) (fs : Fs) (reqPath : String)
    (rangeHeader : Option String) : HttpResult :=
  let fsPath := translatePath env.token env.cwd reqPath
  match rangeHeader with
  | none => serveRest env fs reqPath fsPath none []
  | some h =>
    match parseRangeServe h with
    | .indexErr => { status := 0, crashed := true }
    | .valueErr => plainError env reqPath 400 [] false
    | .ok s e0 =>
      let lg : LogEvent :=
        { path := reqPath, status := "range-start", startByte := some (s : Int),
          endByte := serveEndLog e0 }
      serveRest env fs reqPath fsPath (some (s, e0)) [lg]

/-- A concrete configuration used to evaluate the handlers on concrete
requests. -/
def env0 : ServerEnv :=
  { token := "sEcReT", cwd := "/srv", url := "https://example.org",
    downloadExtensions := [".zip"] }

/-- A concrete filesystem with a 2-byte file `f` and an 8-byte file `g`
under the `public_html` root. -/
def fs0 : Fs :=
  { isDir := fun _ => false,
    hasIndexHtml := fun _ => false,
    file := fun p =>
      if p = "/srv/public_html/f" then some [10, 20]
      else if p = "/srv/public_html/g" then some [0, 1, 2, 3, 4, 5, 6, 7]
      else none }

end Server

namespace TransferLogModel

/-- The four actions of `FileTransferLog._log_transfer`
(`src/serve/logger.py`, lines 86-119), as executed by the thread spawned for
one `log_transfer` call: enter `with self.lock`, run the `INSERT`, run
`conn.commit()`, and leave the `with` block. -/
inductive LAct
  | acq
  | ins
  | com
  | rel
deriving DecidableEq, Repr

/-- The program every logging thread runs, in order. -/
def prog : List LAct := [.acq, .ins, .com, .rel]

/-- The shared state behind the single SQLite connection: the lock holder,
the uncommitted row sitting on the connection, and the committed
`transfer_log` rows.  A thread's row is identified by its thread id. -/
structure LogDb where
  lockHolder : Option Nat
  pending : Option Nat
  rows : List Nat
deriving DecidableEq, Repr

def initDb : LogDb := ⟨none, none, []⟩

/-- One scheduler step: thread `t` performs action `a`.  Acquiring blocks
(no step) while the lock is held; the insert and the commit act on the
shared connection and are only possible for the lock holder, because the
code keeps the whole insert-and-commit inside `with self.lock`. -/
def step (s : LogDb) : Nat × LAct → Option LogDb
  | (t, .acq) =>
    if s.lockHolder = none then some { s with lockHolder := some t } else none
  | (t, .ins) =>
    if s.lockHolder = some t then some { s with pending := some t } else none
  | (t, .com) =>
    if s.lockHolder = some t then
      match s.pending with
      | some r => some { s with pending := none, rows := s.rows ++ [r] }
      | none => none
    else none
  | (t, .rel) =>
    if s.lockHolder = some t then some { s with lockHolder := none } else none

/-- Run a whole interleaving. -/
def run : LogDb → List (Nat × LAct) → Option LogDb
  | s, [] => some s
  | s, a :: rest =>
    match step s a with
    | some s' => run s' rest
    | none => none

/-- The actions of thread `t` in an interleaving, in order. -/
def proj (tr : List (Nat × LAct)) (t : Nat) : List LAct :=
  (tr.filter (fun a => a.1 == t)).map Prod.snd

/-- Invariant tying the shared state to the remaining program `rem t` of
every thread: the lock holder is mid-protocol, everyone else is idle, the
pending row belongs to the holder, and the committed rows are exactly the
rows of the threads that have passed their commit. -/
structure LogInv (N : Nat) (rem : Nat → List LAct) (s : LogDb) : Prop where
  outside : ∀ t, N ≤ t → rem t = []
  lockFree : s.lockHolder = none →
    s.pending = none ∧ ∀ t, rem t = prog ∨ rem t = []
  lockHeld : ∀ t, s.lockHolder = some t →
    (rem t = [.ins, .com, .rel] ∨ rem t = [.com, .rel] ∨ rem t = [.rel]) ∧
    (s.pending = some t ↔ rem t = [.com, .rel]) ∧
    (s.pending = none ∨ s.pending = some t) ∧
    (∀ u, u ≠ t → rem u = prog ∨ rem u = [])
  rowsNodup : s.rows.Nodup
  rowsMem : ∀ x, x ∈ s.rows ↔ x < N ∧ (rem x = [LAct.rel] ∨ rem x = [])

/-- A concrete complete interleaving of two logging threads. -/
def wTrace : List (Nat × LAct) :=
  [(0, .acq), (0, .ins), (0, .com), (0, .rel),
   (1, .acq), (1, .ins), (1, .com), (1, .rel)]

end TransferLogModel

namespace TransferLogModel

theorem inv_step (N : Nat) (rem rem' : Nat → List LAct) (s s' : LogDb)
    (t : Nat) (a : LAct)
    (hInv : LogInv N rem s) (ht : rem t = a :: rem' t)
    (hu : ∀ u, u ≠ t → rem u = rem' u)
    (hstep : step s (t, a) = some s') : LogInv N rem' s' := by
  have htN : t < N := by
    by_contra hN
    have h0 := hInv.outside t (Nat.le_of_not_lt hN)
    rw [h0] at ht
    exact List.noConfusion ht
  cases a with
  | acq =>
    simp only [step] at hstep
    split at hstep
    case isFalse => exact absurd hstep (by simp)
    case isTrue hl =>
      injection hstep with hs'
      subst hs'
      obtain ⟨hpend, hidle⟩ := hInv.lockFree hl
      have hremt : rem t = prog := by
        rcases hidle t with h | h
        · exact h
        · rw [h] at ht; exact List.noConfusion ht
      have hremt' : rem' t = [LAct.ins, LAct.com, LAct.rel] := by
        rw [hremt] at ht
        injection ht with h1 h2
        exact h2.symm
      refine ⟨?_, ?_, ?_, hInv.rowsNodup, ?_⟩
      · intro u hNu
        by_cases hut : u = t
        · subst hut; exact absurd hNu (by omega)
        · rw [← hu u hut]; exact hInv.outside u hNu
      · intro h; exact absurd h (by simp)
      · intro u hEq
        have hut : t = u := by simpa using hEq
        subst hut
        refine ⟨Or.inl hremt', ?_, Or.inl hpend, ?_⟩
        · constructor
          · intro h; rw [hpend] at h; exact Option.noConfusion h
          · intro h; rw [hremt'] at h; exact absurd h (by decide)
        · intro u hut
          rw [← hu u hut]
          exact hidle u
      · intro x
        rw [hInv.rowsMem x]
        by_cases hxt : x = t
        · subst hxt
          rw [hremt, hremt']
          simp [prog]
        · rw [hu x hxt]
  | ins =>
    simp only [step] at hstep
    split at hstep
    case isFalse => exact absurd hstep (by simp)
    case isTrue hl =>
      injection hstep with hs'
      subst hs'
      obtain ⟨h3, hpiff, hpnt, hothers⟩ := hInv.lockHeld t hl
      have hremt : rem t = [LAct.ins, LAct.com, LAct.rel] := by
        rcases h3 with h | h | h
        · exact h
        · rw [h] at ht; injection ht with h1 _; exact absurd h1 (by decide)
        · rw [h] at ht; injection ht with h1 _; exact absurd h1 (by decide)
      have hremt' : rem' t = [LAct.com, LAct.rel] := by
        rw [hremt] at ht
        injection ht with h1 h2
        exact h2.symm
      refine ⟨?_, ?_, ?_, hInv.rowsNodup, ?_⟩
      · intro u hNu
        by_cases hut : u = t
        · subst hut; exact absurd hNu (by omega)
        · rw [← hu u hut]; exact hInv.outside u hNu
      · intro h; rw [hl] at h; exact Option.noConfusion h
      · intro u hEq
        rw [hl] at hEq
        have hut : t = u := by simpa using hEq
        subst hut
        refine ⟨Or.inr (Or.inl hremt'), ?_, Or.inr rfl, ?_⟩
        · constructor
          · intro _; exact hremt'
          · intro _; rfl
        · intro u hut
          rw [← hu u hut]
          exact hothers u hut
      · intro x
        rw [hInv.rowsMem x]
        by_cases hxt : x = t
        · subst hxt
          rw [hremt, hremt']
          simp
        · rw [hu x hxt]
  | com =>
    simp only [step] at hstep
    split at hstep
    case isFalse => exact absurd hstep (by simp)
    case isTrue hl =>
      obtain ⟨h3, hpiff, hpnt, hothers⟩ := hInv.lockHeld t hl
      have hremt : rem t = [LAct.com, LAct.rel] := by
        rcases h3 with h | h | h
        · rw [h] at ht; injection ht with h1 _; exact absurd h1 (by decide)
        · exact h
        · rw [h] at ht; injection ht with h1 _; exact absurd h1 (by decide)
      have hremt' : rem' t = [LAct.rel] := by
        rw [hremt] at ht
        injection ht with h1 h2
        exact h2.symm
      have hpend : s.pending = some t := hpiff.mpr hremt
      rw [hpend] at hstep
      injection hstep with hs'
      subst hs'
      have htnotin : t ∉ s.rows := by
        intro hmem
        rcases (hInv.rowsMem t).mp hmem with ⟨_, hc | hc⟩
        · rw [hremt] at hc; exact absurd hc (by decide)
        · rw [hremt] at hc; exact absurd hc (by decide)
      refine ⟨?_, ?_, ?_, ?_, ?_⟩
      · intro u hNu
        by_cases hut : u = t
        · subst hut; exact absurd hNu (by omega)
        · rw [← hu u hut]; exact hInv.outside u hNu
      · intro h; rw [hl] at h; exact Option.noConfusion h
      · intro u hEq
        rw [hl] at hEq
        have hut : t = u := by simpa using hEq
        subst hut
        refine ⟨Or.inr (Or.inr hremt'), ?_, Or.inl rfl, ?_⟩
        · constructor
          · intro h; exact Option.noConfusion h
          · intro h; rw [hremt'] at h; exact absurd h (by decide)
        · intro u hut
          rw [← hu u hut]
          exact hothers u hut
      · simp only [List.nodup_append, List.nodup_singleton]
        exact ⟨hInv.rowsNodup, trivial, by
          intro x hx hx'
          have : x = t := by simpa using hx'
          subst this
          exact htnotin hx⟩
      · intro x
        simp only [List.mem_append, List.mem_singleton]
        by_cases hxt : x = t
        · subst hxt
          rw [hremt']
          simp [htnotin, htN]
        · have hrx : rem' x = rem x := (hu x hxt).symm
          rw [hrx, hInv.rowsMem x]
          simp [hxt]
  | rel =>
    simp only [step] at hstep
    split at hstep
    case isFalse => exact absurd hstep (by simp)
    case isTrue hl =>
      injection hstep with hs'
      subst hs'
      obtain ⟨h3, hpiff, hpnt, hothers⟩ := hInv.lockHeld t hl
      have hremt : rem t = [LAct.rel] := by
        rcases h3 with h | h | h
        · rw [h] at ht; injection ht with h1 _; exact absurd h1 (by decide)
        · rw [h] at ht; injection ht with h1 _; exact absurd h1 (by decide)
        · exact h
      have hremt' : rem' t = [] := by
        rw [hremt] at ht
        injection ht with _ h2
        exact h2.symm
      have hpend : s.pending = none := by
        rcases hpnt with h | h
        · exact h
        · have h2 := hpiff.mp h
          rw [hremt] at h2
          exact absurd h2 (by decide)
      refine ⟨?_, ?_, ?_, hInv.rowsNodup, ?_⟩
      · intro u hNu
        by_cases hut : u = t
        · subst hut; exact absurd hNu (by omega)
        · rw [← hu u hut]; exact hInv.outside u hNu
      · intro _
        refine ⟨hpend, ?_⟩
        intro u
        by_cases hut : u = t
        · subst hut; exact Or.inr hremt'
        · rw [← hu u hut]; exact hothers u hut
      · intro u hEq
        exact absurd hEq (by simp)
      · intro x
        rw [hInv.rowsMem x]
        by_cases hxt : x = t
        · subst hxt
          rw [hremt, hremt']
          simp
        · rw [hu x hxt]

theorem proj_cons_self (t : Nat) (a : LAct) (tr : List (Nat × LAct)) :
    proj ((t, a) :: tr) t = a :: proj tr t := by
  simp [proj]

theorem proj_cons_other (t u : Nat) (a : LAct) (tr : List (Nat × LAct))
    (h : u ≠ t) : proj ((t, a) :: tr) u = proj tr u := by
  simp [proj, beq_iff_eq, Ne.symm h]

theorem run_inv (N : Nat) :
    ∀ (tr : List (Nat × LAct)) (s s2 : LogDb),
      LogInv N (proj tr) s → run s tr = some s2 → LogInv N (fun _ => []) s2
  | [], s, s2, hInv, hrun => by
    have hs : s = s2 := by simpa [run] using hrun
    subst hs
    have hpe : (fun _ => ([] : List LAct)) = proj [] := by
      funext u
      simp [proj]
    rw [hpe]
    exact hInv
  | (t, a) :: rest, s, s2, hInv, hrun => by
    rw [run] at hrun
    cases hst : step s (t, a) with
    | none => rw [hst] at hrun; exact absurd hrun (by simp)
    | some s1 =>
      rw [hst] at hrun
      have hInv1 : LogInv N (proj rest) s1 :=
        inv_step N (proj ((t, a) :: rest)) (proj rest) s s1 t a hInv
          (proj_cons_self t a rest)
          (fun u hu => proj_cons_other t u a rest hu) hst
      exact run_inv N rest s1 s2 hInv1 hrun

end TransferLogModel
namespace Server

open PyStr

theorem resolveSrc_sat_both (s e L : Nat) (hse : s ≤ e) (heL : e < L) :
    resolveSrc (some s) (some e) L = .sat (s : Int) (e : Int) := by
  simp only [resolveSrc]
  rw [if_neg]
  omega

theorem resolveSrc_unsat_end (s e L : Nat) (hLe : L ≤ e) :
    resolveSrc (some s) (some e) L = .unsat := by
  simp only [resolveSrc]
  rw [if_pos]
  left
  omega

theorem resolveSrc_unsat_inv (s e L : Nat) (hes : e < s) :
    resolveSrc (some s) (some e) L = .unsat := by
  simp only [resolveSrc]
  rw [if_pos]
  right
  omega

theorem resolveSrc_unsat_start (s L : Nat) (e0 : Option Nat) (hLs : L ≤ s) :
    resolveSrc (some s) e0 L = .unsat := by
  cases e0 with
  | none =>
    simp only [resolveSrc]
    rw [if_pos]
    right
    omega
  | some e =>
    simp only [resolveSrc]
    rw [if_pos]
    by_cases h : L ≤ e
    · left; omega
    · right; omega

theorem resolveSrc_sat_suffix (K L : Nat) (hK : 1 ≤ K) (hKL : K ≤ L) :
    resolveSrc none (some K) L = .sat ((L : Int) - (K : Int)) ((L : Int) - 1) := by
  simp only [resolveSrc]
  rw [if_neg, max_eq_right]
  · omega
  · omega

theorem resolveSrc_sat_open (K L : Nat) (hK : K < L) :
    resolveSrc (some K) none L = .sat (K : Int) ((L : Int) - 1) := by
  simp only [resolveSrc]
  rw [if_neg]
  omega

theorem resolveServe_some_both (s e L : Nat) (he : 1 ≤ e) (heL : e < L) (hse : s ≤ e) :
    resolveServe s (some e) L = some ((s : Int), (e : Int)) := by
  have h0 : ¬ (e = 0 ∨ (e : Int) ≥ (L : Int)) := by omega
  simp only [resolveServe, if_neg h0]
  rw [if_neg]
  omega

theorem resolveServe_clamp (s e L : Nat) (hLe : L ≤ e) (hs : s < L) :
    resolveServe s (some e) L = some ((s : Int), (L : Int) - 1) := by
  have h0 : e = 0 ∨ (e : Int) ≥ (L : Int) := by omega
  simp only [resolveServe, if_pos h0]
  rw [if_neg]
  omega

theorem resolveServe_none_inv (s e L : Nat) (he : 1 ≤ e) (hes : e < s) :
    resolveServe s (some e) L = none := by
  by_cases h : (e : Int) ≥ (L : Int)
  · have h0 : e = 0 ∨ (e : Int) ≥ (L : Int) := Or.inr h
    simp only [resolveServe, if_pos h0]
    rw [if_pos]
    omega
  · have h0 : ¬ (e = 0 ∨ (e : Int) ≥ (L : Int)) := by omega
    simp only [resolveServe, if_neg h0]
    rw [if_pos]
    omega

theorem resolveServe_none_start (s L : Nat) (e0 : Option Nat) (hLs : L ≤ s) :
    resolveServe s e0 L = none := by
  cases e0 with
  | none =>
    simp only [resolveServe]
    rw [if_pos]
    omega
  | some e =>
    by_cases h0 : e = 0 ∨ (e : Int) ≥ (L : Int)
    · simp only [resolveServe, if_pos h0]
      rw [if_pos]
      omega
    · simp only [resolveServe, if_neg h0]
      rw [if_pos]
      push_neg at h0
      omega

theorem resolveServe_open (s L : Nat) (hs : s < L) :
    resolveServe s none L = some ((s : Int), (L : Int) - 1) := by
  simp only [resolveServe]
  rw [if_neg]
  omega

theorem srcServeFile_sat (env : ServerEnv) (fs : Fs) (reqPath fsPath : String)
    (content : List Nat) (s0 e0 : Option Nat) (s e : Int)
    (hdir : fs.isDir fsPath = false)
    (hfile : fs.file fsPath = some content)
    (hres : resolveSrc s0 e0 content.length = .sat s e) :
    srcServeFile env fs reqPath fsPath s0 e0 =
      { status := 206, contentRange := some (s, e, (content.length : Int)),
        contentLength := some (e - s + 1), acceptRanges := true,
        contentDisposition := cdOf env reqPath,
        body := sliceBytes content s e,
        logs := [{ path := reqPath, status := "range-start", startByte := some s,
                   endByte := if e = 0 then none else some e },
                 { path := fsPath, status := "range-complete", startByte := some s,
                   endByte := some e }],
        fsTouched := true } := by
  simp [srcServeFile, hdir, hfile, hres]

theorem srcServeFile_unsat (env : ServerEnv) (fs : Fs) (reqPath fsPath : String)
    (content : List Nat) (s0 e0 : Option Nat)
    (hdir : fs.isDir fsPath = false)
    (hfile : fs.file fsPath = some content)
    (hres : resolveSrc s0 e0 content.length = .unsat) :
    srcServeFile env fs reqPath fsPath s0 e0 =
      plainError env reqPath 416 [] true := by
  simp [srcServeFile, hdir, hfile, hres]

theorem srcServeFile_full (env : ServerEnv) (fs : Fs) (reqPath fsPath : String)
    (content : List Nat) (s0 e0 : Option Nat)
    (hdir : fs.isDir fsPath = false)
    (hfile : fs.file fsPath = some content)
    (hres : resolveSrc s0 e0 content.length = .full) :
    srcServeFile env fs reqPath fsPath s0 e0 =
      { status := 200, contentLength := some ((content.length : Int)),
        acceptRanges := true,
        contentDisposition := cdOf env reqPath,
        contentDispositionFile :=
          if env.downloadExtensions.contains (splitextExt fsPath) then
            some (pyBasename fsPath)
          else none,
        body := content,
        logs := [{ path := fsPath, status := "start" },
                 { path := fsPath, status := "complete" }],
        fsTouched := true } := by
  simp [srcServeFile, hdir, hfile, hres]

theorem doGetSrc_serveFile (env : ServerEnv) (fs : Fs) (reqPath hdr : String)
    (s0 e0 : Option Nat)
    (hpath : translatePath env.token env.cwd reqPath ≠ "")
    (hparse : parseRangeSrc hdr = some (s0, e0)) :
    doGetSrc env fs reqPath (some hdr) =
      srcServeFile env fs reqPath (translatePath env.token env.cwd reqPath) s0 e0 := by
  simp only [doGetSrc, hparse]
  rw [if_neg hpath]

theorem doGetSrc_noRange (env : ServerEnv) (fs : Fs) (reqPath : String)
    (hpath : translatePath env.token env.cwd reqPath ≠ "") :
    doGetSrc env fs reqPath none =
      srcServeFile env fs reqPath (translatePath env.token env.cwd reqPath) none none := by
  simp only [doGetSrc]
  rw [if_neg hpath]

theorem doGetSrc_malformed (env : ServerEnv) (fs : Fs) (reqPath hdr : String)
    (hpath : translatePath env.token env.cwd reqPath ≠ "")
    (hparse : parseRangeSrc hdr = none) :
    doGetSrc env fs reqPath (some hdr) = plainError env reqPath 400 [] false := by
  simp only [doGetSrc, hparse]
  rw [if_neg hpath]

theorem doGetServe_serveRest (env : ServerEnv) (fs : Fs) (reqPath hdr : String)
    (s : Nat) (e0 : Option Nat)
    (hparse : parseRangeServe hdr = .ok s e0) :
    doGetServe env fs reqPath (some hdr) =
      serveRest env fs reqPath (translatePath env.token env.cwd reqPath)
        (some (s, e0))
        [{ path := reqPath, status := "range-start", startByte := some (s : Int),
           endByte := serveEndLog e0 }] := by
  simp only [doGetServe, hparse]

theorem serveRest_sat (env : ServerEnv) (fs : Fs) (reqPath fsPath : String)
    (content : List Nat) (s : Nat) (e0 : Option Nat) (s' e' : Int)
    (logs0 : List LogEvent)
    (hne : fsPath ≠ "") (hdir : fs.isDir fsPath = false)
    (hfile : fs.file fsPath = some content)
    (hres : resolveServe s e0 content.length = some (s', e')) :
    serveRest env fs reqPath fsPath (some (s, e0)) logs0 =
      { status := 206, contentRange := some (s', e', (content.length : Int)),
        contentLength := some (e' - s' + 1), acceptRanges := true,
        contentDisposition := cdOf env reqPath,
        body := sliceBytes content s' e',
        logs := logs0 ++ [{ path := fsPath, status := "range-complete",
                            startByte := some s', endByte := some e' }],
        fsTouched := true } := by
  simp only [serveRest, hdir, hfile, hres]
  rw [if_neg hne]
  simp

theorem serveRest_unsat (env : ServerEnv) (fs : Fs) (reqPath fsPath : String)
    (content : List Nat) (s : Nat) (e0 : Option Nat) (logs0 : List LogEvent)
    (hne : fsPath ≠ "") (hdir : fs.isDir fsPath = false)
    (hfile : fs.file fsPath = some content)
    (hres : resolveServe s e0 content.length = none) :
    serveRest env fs reqPath fsPath (some (s, e0)) logs0 =
      plainError env reqPath 416 logs0 true := by
  simp only [serveRest, hdir, hfile, hres]
  rw [if_neg hne]
  simp

theorem serveRest_full (env : ServerEnv) (fs : Fs) (reqPath fsPath : String)
    (content : List Nat)
    (hne : fsPath ≠ "") (hdir : fs.isDir fsPath = false)
    (hfile : fs.file fsPath = some content) :
    serveRest env fs reqPath fsPath none [] =
      { status := 200, contentLength := some ((content.length : Int)),
        acceptRanges := true, contentDisposition := cdOf env reqPath,
        body := content,
        logs := [{ path := fsPath, status := "start" },
                 { path := fsPath, status := "complete" }],
        fsTouched := true } := by
  simp only [serveRest, hdir, hfile]
  rw [if_neg hne]
  simp

theorem pyBound_some_val (p : String) (v : Nat) (h : pyBound p = some (some v)) :
    p ≠ "" ∧ pyIntNN p = some v := by
  unfold pyBound at h
  by_cases h0 : p = ""
  · rw [if_pos h0] at h
    simp at h
  · rw [if_neg h0] at h
    refine ⟨h0, ?_⟩
    cases hv : pyIntNN p with
    | none => rw [hv] at h; simp at h
    | some w =>
      rw [hv] at h
      simp at h
      rw [h]

theorem pyBound_some_none (p : String) (h : pyBound p = some none) : p = "" := by
  unfold pyBound at h
  by_cases h0 : p = ""
  · exact h0
  · rw [if_neg h0] at h
    cases hv : pyIntNN p with
    | none => rw [hv] at h; simp at h
    | some w => rw [hv] at h; simp at h

theorem parseSpec_both_serve (parts : List String) (s e : Nat)
    (hp : parseSpecSrc parts = some (some s, some e)) :
    parseSpecServe parts = .ok s (some e) := by
  match parts with
  | [] => simp [parseSpecSrc] at hp
  | [p0] =>
    simp only [parseSpecSrc] at hp
    cases hb : pyBound p0 with
    | none => rw [hb] at hp; simp at hp
    | some a => rw [hb] at hp; simp at hp
  | p0 :: p1 :: rest =>
    simp only [parseSpecSrc] at hp
    cases hb0 : pyBound p0 with
    | none => rw [hb0] at hp; simp at hp
    | some a =>
      cases hb1 : pyBound p1 with
      | none => rw [hb0, hb1] at hp; simp at hp
      | some b =>
        rw [hb0, hb1] at hp
        simp at hp
        obtain ⟨ha, hbb⟩ := hp
        rw [ha] at hb0
        rw [hbb] at hb1
        obtain ⟨hne0, hi0⟩ := pyBound_some_val p0 s hb0
        obtain ⟨hne1, hi1⟩ := pyBound_some_val p1 e hb1
        simp only [parseSpecServe, hi0, hi1]
        rw [if_neg hne1]

theorem parseSpec_suffix_serve (parts : List String) (K : Nat)
    (hp : parseSpecSrc parts = some (none, some K)) :
    parseSpecServe parts = .valueErr := by
  match parts with
  | [] => simp [parseSpecSrc] at hp
  | [p0] =>
    simp only [parseSpecSrc] at hp
    cases hb : pyBound p0 with
    | none => rw [hb] at hp; simp at hp
    | some a => rw [hb] at hp; simp at hp
  | p0 :: p1 :: rest =>
    simp only [parseSpecSrc] at hp
    cases hb0 : pyBound p0 with
    | none => rw [hb0] at hp; simp at hp
    | some a =>
      cases hb1 : pyBound p1 with
      | none => rw [hb0, hb1] at hp; simp at hp
      | some b =>
        rw [hb0, hb1] at hp
        simp at hp
        obtain ⟨ha, hbb⟩ := hp
        rw [ha] at hb0
        have h0 : p0 = "" := pyBound_some_none p0 hb0
        subst h0
        simp [parseSpecServe, pyIntNN, digitsVal]

theorem parseRange_src_serve_both (h : String) (s e : Nat)
    (hp : parseRangeSrc h = some (some s, some e)) :
    parseRangeServe h = .ok s (some e) := by
  unfold parseRangeSrc at hp
  unfold parseRangeServe
  cases hsp : splitAll h '=' with
  | nil => rw [hsp] at hp; simp at hp
  | cons a tail =>
    cases tail with
    | nil => rw [hsp] at hp; simp at hp
    | cons b tail2 =>
      cases tail2 with
      | nil =>
        rw [hsp] at hp
        exact parseSpec_both_serve _ s e hp
      | cons c tail3 => rw [hsp] at hp; simp at hp

theorem parseRange_src_serve_suffix (h : String) (K : Nat)
    (hp : parseRangeSrc h = some (none, some K)) :
    parseRangeServe h = .valueErr := by
  unfold parseRangeSrc at hp
  unfold parseRangeServe
  cases hsp : splitAll h '=' with
  | nil => rw [hsp] at hp; simp at hp
  | cons a tail =>
    cases tail with
    | nil => rw [hsp] at hp; simp at hp
    | cons b tail2 =>
      cases tail2 with
      | nil =>
        rw [hsp] at hp
        exact parseSpec_suffix_serve _ K hp
      | cons c tail3 => rw [hsp] at hp; simp at hp

theorem sliceBytes_nat (content : List Nat) (s e : Nat) :
    sliceBytes content (s : Int) (e : Int) = (content.drop s).take (e + 1 - s) := by
  unfold sliceBytes
  have h1 : ((s : Int)).toNat = s := Int.toNat_ofNat s
  have h2 : ((e : Int) - (s : Int) + 1).toNat = e + 1 - s := by omega
  rw [h1, h2]

theorem sliceBytes_suffix (content : List Nat) (K : Nat) (hK1 : 1 ≤ K)
    (hKL : K ≤ content.length) :
    sliceBytes content ((content.length : Int) - (K : Int))
      ((content.length : Int) - 1) = content.drop (content.length - K) := by
  unfold sliceBytes
  have h1 : ((content.length : Int) - (K : Int)).toNat = content.length - K := by
    omega
  have h2 : (((content.length : Int) - 1) - ((content.length : Int) - (K : Int)) + 1).toNat = K := by
    omega
  rw [h1, h2]
  apply List.take_of_length_le
  rw [List.length_drop]
  omega

theorem sliceBytes_open (content : List Nat) (K : Nat) (hK : K < content.length) :
    sliceBytes content (K : Int) ((content.length : Int) - 1) = content.drop K := by
  unfold sliceBytes
  have h1 : ((K : Int)).toNat = K := Int.toNat_ofNat K
  have h2 : (((content.length : Int) - 1) - (K : Int) + 1).toNat = content.length - K := by
    omega
  rw [h1, h2]
  apply List.take_of_length_le
  rw [List.length_drop]

theorem slice_len (content : List Nat) (s e : Nat) (hse : s ≤ e)
    (heL : e < content.length) :
    ((content.drop s).take (e - s + 1)).length = e - s + 1 := by
  rw [List.length_take, List.length_drop]
  omega

/-- C2 (amended): for the current handler (src/server.py), every request
whose Range header parses to explicit bounds start <= end <= L-1 on a file
of L bytes is answered 206 with Content-Range bytes start-end/L and exactly
end-start+1 body bytes equal to the source slice; the legacy handler
(src/serve/server.py) does the same provided end >= 1, because it treats an
explicit end of 0 as absent. -/
theorem range_exact_slice (env : ServerEnv) (fs : Fs) (reqPath hdr : String)
    (content : List Nat) (s e : Nat)
    (hpath : translatePath env.token env.cwd reqPath ≠ "")
    (hdir : fs.isDir (translatePath env.token env.cwd reqPath) = false)
    (hfile : fs.file (translatePath env.token env.cwd reqPath) = some content)
    (hparse : parseRangeSrc hdr = some (some s, some e))
    (hse : s ≤ e) (heL : e < content.length) :
    ((doGetSrc env fs reqPath (some hdr)).status = 206 ∧
     (doGetSrc env fs reqPath (some hdr)).contentRange =
       some ((s : Int), (e : Int), (content.length : Int)) ∧
     (doGetSrc env fs reqPath (some hdr)).contentLength =
       some ((e : Int) - (s : Int) + 1) ∧
     (doGetSrc env fs reqPath (some hdr)).body =
       (content.drop s).take (e - s + 1) ∧
     (doGetSrc env fs reqPath (some hdr)).body.length = e - s + 1) ∧
    (1 ≤ e →
     (doGetServe env fs reqPath (some hdr)).status = 206 ∧
     (doGetServe env fs reqPath (some hdr)).contentRange =
       some ((s : Int), (e : Int), (content.length : Int)) ∧
     (doGetServe env fs reqPath (some hdr)).body =
       (content.drop s).take (e - s + 1) ∧
     (doGetServe env fs reqPath (some hdr)).body.length = e - s + 1) := by
  have htake : e + 1 - s = e - s + 1 := by omega
  have hEqSrc : doGetSrc env fs reqPath (some hdr) =
      { status := 206,
        contentRange := some ((s : Int), (e : Int), (content.length : Int)),
        contentLength := some ((e : Int) - (s : Int) + 1), acceptRanges := true,
        contentDisposition := cdOf env reqPath,
        body := sliceBytes content (s : Int) (e : Int),
        logs := [{ path := reqPath, status := "range-start",
                   startByte := some (s : Int),
                   endByte := if (e : Int) = 0 then none else some (e : Int) },
                 { path := translatePath env.token env.cwd reqPath,
                   status := "range-complete", startByte := some (s : Int),
                   endByte := some (e : Int) }],
        fsTouched := true } :=
    (doGetSrc_serveFile env fs reqPath hdr _ _ hpath hparse).trans
      (srcServeFile_sat env fs reqPath _ content _ _ _ _ hdir hfile
        (resolveSrc_sat_both s e content.length hse heL))
  refine ⟨?_, ?_⟩
  · rw [hEqSrc]
    refine ⟨rfl, rfl, rfl, ?_, ?_⟩
    · show sliceBytes content (s : Int) (e : Int) = _
      rw [sliceBytes_nat, htake]
    · show (sliceBytes content (s : Int) (e : Int)).length = _
      rw [sliceBytes_nat, htake, slice_len content s e hse heL]
  · intro he1
    have hserve := parseRange_src_serve_both hdr s e hparse
    have hEqServe : doGetServe env fs reqPath (some hdr) =
        { status := 206,
          contentRange := some ((s : Int), (e : Int), (content.length : Int)),
          contentLength := some ((e : Int) - (s : Int) + 1), acceptRanges := true,
          contentDisposition := cdOf env reqPath,
          body := sliceBytes content (s : Int) (e : Int),
          logs := [{ path := reqPath, status := "range-start",
                     startByte := some (s : Int), endByte := serveEndLog (some e) }] ++
            [{ path := translatePath env.token env.cwd reqPath,
               status := "range-complete", startByte := some (s : Int),
               endByte := some (e : Int) }],
          fsTouched := true } :=
      (doGetServe_serveRest env fs reqPath hdr s (some e) hserve).trans
        (serveRest_sat env fs reqPath _ content s (some e) _ _ _ hpath hdir hfile
          (resolveServe_some_both s e content.length he1 heL hse))
    rw [hEqServe]
    refine ⟨rfl, rfl, ?_, ?_⟩
    · show sliceBytes content (s : Int) (e : Int) = _
      rw [sliceBytes_nat, htake]
    · show (sliceBytes content (s : Int) (e : Int)).length = _
      rw [sliceBytes_nat, htake, slice_len content s e hse heL]

theorem doGetServe_noRange (env : ServerEnv) (fs : Fs) (reqPath : String) :
    doGetServe env fs reqPath none =
      serveRest env fs reqPath (translatePath env.token env.cwd reqPath) none [] := rfl

theorem doGetServe_valueErr (env : ServerEnv) (fs : Fs) (reqPath hdr : String)
    (hparse : parseRangeServe hdr = .valueErr) :
    doGetServe env fs reqPath (some hdr) = plainError env reqPath 400 [] false := by
  simp only [doGetServe, hparse]

theorem doGetServe_indexErr (env : ServerEnv) (fs : Fs) (reqPath hdr : String)
    (hparse : parseRangeServe hdr = .indexErr) :
    doGetServe env fs reqPath (some hdr) = { status := 0, crashed := true } := by
  simp only [doGetServe, hparse]

/-- C3 (amended): an explicit end bound >= L is clamped to L-1 and served
206 only by the legacy handler (src/serve/server.py); the current handler
(src/server.py) answers such a request 416, as its own test suite asserts. -/
theorem end_ge_length_behavior (env : ServerEnv) (fs : Fs) (reqPath hdr : String)
    (content : List Nat) (s e : Nat)
    (hpath : translatePath env.token env.cwd reqPath ≠ "")
    (hdir : fs.isDir (translatePath env.token env.cwd reqPath) = false)
    (hfile : fs.file (translatePath env.token env.cwd reqPath) = some content)
    (hparse : parseRangeSrc hdr = some (some s, some e))
    (hLe : content.length ≤ e) (hs : s < content.length) :
    (doGetSrc env fs reqPath (some hdr)).status = 416 ∧
    (doGetServe env fs reqPath (some hdr)).status = 206 ∧
    (doGetServe env fs reqPath (some hdr)).contentRange =
      some ((s : Int), (content.length : Int) - 1, (content.length : Int)) := by
  refine ⟨?_, ?_⟩
  · have hEq := (doGetSrc_serveFile env fs reqPath hdr _ _ hpath hparse).trans
      (srcServeFile_unsat env fs reqPath _ content _ _ hdir hfile
        (resolveSrc_unsat_end s e content.length hLe))
    rw [hEq]
    rfl
  · have hserve := parseRange_src_serve_both hdr s e hparse
    have hEq := (doGetServe_serveRest env fs reqPath hdr s (some e) hserve).trans
      (serveRest_sat env fs reqPath _ content s (some e) _ _ _ hpath hdir hfile
        (resolveServe_clamp s e content.length hLe hs))
    rw [hEq]
    exact ⟨rfl, rfl⟩

/-- C4 (amended): for the current handler, bytes=-K with 1 <= K <= L serves
206 on [L-K, L-1] and bytes=K- with K < L serves 206 on [K, L-1]; the
legacy handler serves the open-ended form the same way, but rejects every
suffix form with 400 because it reads the empty start bound with int(). -/
theorem suffix_and_open_ranges (env : ServerEnv) (fs : Fs) (reqPath : String)
    (content : List Nat)
    (hpath : translatePath env.token env.cwd reqPath ≠ "")
    (hdir : fs.isDir (translatePath env.token env.cwd reqPath) = false)
    (hfile : fs.file (translatePath env.token env.cwd reqPath) = some content) :
    (∀ hdr K, parseRangeSrc hdr = some (none, some K) → 1 ≤ K →
      K ≤ content.length →
      (doGetSrc env fs reqPath (some hdr)).status = 206 ∧
      (doGetSrc env fs reqPath (some hdr)).contentRange =
        some ((content.length : Int) - (K : Int), (content.length : Int) - 1,
          (content.length : Int)) ∧
      (doGetSrc env fs reqPath (some hdr)).body =
        content.drop (content.length - K) ∧
      (doGetSrc env fs reqPath (some hdr)).body.length = K) ∧
    (∀ hdr K, parseRangeSrc hdr = some (some K, none) → K < content.length →
      (doGetSrc env fs reqPath (some hdr)).status = 206 ∧
      (doGetSrc env fs reqPath (some hdr)).contentRange =
        some ((K : Int), (content.length : Int) - 1, (content.length : Int)) ∧
      (doGetSrc env fs reqPath (some hdr)).body = content.drop K) ∧
    (∀ hdr K, parseRangeSrc hdr = some (none, some K) →
      parseRangeServe hdr = .valueErr ∧
      (doGetServe env fs reqPath (some hdr)).status = 400) ∧
    (∀ hdr K, parseRangeServe hdr = .ok K none → K < content.length →
      (doGetServe env fs reqPath (some hdr)).status = 206 ∧
      (doGetServe env fs reqPath (some hdr)).contentRange =
        some ((K : Int), (content.length : Int) - 1, (content.length : Int))) := by
  refine ⟨?_, ?_, ?_, ?_⟩
  · intro hdr K hparse hK1 hKL
    have hEq := (doGetSrc_serveFile env fs reqPath hdr _ _ hpath hparse).trans
      (srcServeFile_sat env fs reqPath _ content _ _ _ _ hdir hfile
        (resolveSrc_sat_suffix K content.length hK1 hKL))
    rw [hEq]
    refine ⟨rfl, rfl, ?_, ?_⟩
    · show sliceBytes content _ _ = _
      rw [sliceBytes_suffix content K hK1 hKL]
    · show (sliceBytes content _ _).length = _
      rw [sliceBytes_suffix content K hK1 hKL, List.length_drop]
      omega
  · intro hdr K hparse hKL
    have hEq := (doGetSrc_serveFile env fs reqPath hdr _ _ hpath hparse).trans
      (srcServeFile_sat env fs reqPath _ content _ _ _ _ hdir hfile
        (resolveSrc_sat_open K content.length hKL))
    rw [hEq]
    refine ⟨rfl, rfl, ?_⟩
    show sliceBytes content _ _ = _
    rw [sliceBytes_open content K hKL]
  · intro hdr K hparse
    have hserve := parseRange_src_serve_suffix hdr K hparse
    refine ⟨hserve, ?_⟩
    rw [doGetServe_valueErr env fs reqPath hdr hserve]
    rfl
  · intro hdr K hparse hKL
    have hEq := (doGetServe_serveRest env fs reqPath hdr K none hparse).trans
      (serveRest_sat env fs reqPath _ content K none _ _ _ hpath hdir hfile
        (resolveServe_open K content.length hKL))
    rw [hEq]
    exact ⟨rfl, rfl⟩

/-- C5 (amended): the current handler answers every syntactically valid
range whose start exceeds L-1 or whose start exceeds its end with 416 and
performs no transfer and no logging; the legacy handler does the same
except that an explicit end of 0 is treated as absent, so an inverted range
with end 0 is served as an open-ended range instead. -/
theorem unsatisfiable_ranges_416 (env : ServerEnv) (fs : Fs) (reqPath : String)
    (content : List Nat)
    (hpath : translatePath env.token env.cwd reqPath ≠ "")
    (hdir : fs.isDir (translatePath env.token env.cwd reqPath) = false)
    (hfile : fs.file (translatePath env.token env.cwd reqPath) = some content) :
    (∀ hdr s e, parseRangeSrc hdr = some (some s, some e) → e < s →
      (doGetSrc env fs reqPath (some hdr)).status = 416 ∧
      (doGetSrc env fs reqPath (some hdr)).body = [] ∧
      (doGetSrc env fs reqPath (some hdr)).logs = []) ∧
    (∀ hdr s e0, parseRangeSrc hdr = some (some s, e0) → content.length ≤ s →
      (doGetSrc env fs reqPath (some hdr)).status = 416 ∧
      (doGetSrc env fs reqPath (some hdr)).body = [] ∧
      (doGetSrc env fs reqPath (some hdr)).logs = []) ∧
    (∀ hdr s e, parseRangeServe hdr = .ok s (some e) → 1 ≤ e → e < s →
      (doGetServe env fs reqPath (some hdr)).status = 416 ∧
      (doGetServe env fs reqPath (some hdr)).body = []) ∧
    (∀ hdr s e0, parseRangeServe hdr = .ok s e0 → content.length ≤ s →
      (doGetServe env fs reqPath (some hdr)).status = 416 ∧
      (doGetServe env fs reqPath (some hdr)).body = []) := by
  refine ⟨?_, ?_, ?_, ?_⟩
  · intro hdr s e hparse hes
    have hEq := (doGetSrc_serveFile env fs reqPath hdr _ _ hpath hparse).trans
      (srcServeFile_unsat env fs reqPath _ content _ _ hdir hfile
        (resolveSrc_unsat_inv s e content.length hes))
    rw [hEq]
    exact ⟨rfl, rfl, rfl⟩
  · intro hdr s e0 hparse hLs
    have hEq := (doGetSrc_serveFile env fs reqPath hdr _ _ hpath hparse).trans
      (srcServeFile_unsat env fs reqPath _ content _ _ hdir hfile
        (resolveSrc_unsat_start s content.length e0 hLs))
    rw [hEq]
    exact ⟨rfl, rfl, rfl⟩
  · intro hdr s e hparse he1 hes
    have hEq := (doGetServe_serveRest env fs reqPath hdr s (some e) hparse).trans
      (serveRest_unsat env fs reqPath _ content s (some e) _ hpath hdir hfile
        (resolveServe_none_inv s e content.length he1 hes))
    rw [hEq]
    exact ⟨rfl, rfl⟩
  · intro hdr s e0 hparse hLs
    have hEq := (doGetServe_serveRest env fs reqPath hdr s e0 hparse).trans
      (serveRest_unsat env fs reqPath _ content s e0 _ hpath hdir hfile
        (resolveServe_none_start s content.length e0 hLs))
    rw [hEq]
    exact ⟨rfl, rfl⟩

/-- C6 (amended): a Range header the current handler cannot parse
(non-numeric bounds, zero or several equals signs) is answered 400 with no
filesystem access and no log event, provided the path carries the valid
token (a wrong-token request is answered 302 before the header is read);
but the header bytes=- parses as a pair of absent bounds and is served as a
normal full 200 response.  The legacy handler answers its parse failures
400 without filesystem access, and lets a header without an equals sign
escape as an uncaught exception. -/
theorem malformed_range_400 (env : ServerEnv) (fs : Fs) (reqPath : String)
    (hpath : translatePath env.token env.cwd reqPath ≠ "") :
    (∀ hdr, parseRangeSrc hdr = none →
      (doGetSrc env fs reqPath (some hdr)).status = 400 ∧
      (doGetSrc env fs reqPath (some hdr)).fsTouched = false ∧
      (doGetSrc env fs reqPath (some hdr)).logs = [] ∧
      (doGetSrc env fs reqPath (some hdr)).body = []) ∧
    (∀ hdr, parseRangeServe hdr = .valueErr →
      (doGetServe env fs reqPath (some hdr)).status = 400 ∧
      (doGetServe env fs reqPath (some hdr)).fsTouched = false ∧
      (doGetServe env fs reqPath (some hdr)).logs = []) ∧
    (∀ hdr, parseRangeServe hdr = .indexErr →
      (doGetServe env fs reqPath (some hdr)).crashed = true) := by
  refine ⟨?_, ?_, ?_⟩
  · intro hdr hparse
    rw [doGetSrc_malformed env fs reqPath hdr hpath hparse]
    exact ⟨rfl, rfl, rfl, rfl⟩
  · intro hdr hparse
    rw [doGetServe_valueErr env fs reqPath hdr hparse]
    exact ⟨rfl, rfl, rfl⟩
  · intro hdr hparse
    rw [doGetServe_indexErr env fs reqPath hdr hparse]

/-- C10 (amended): the two handler versions agree (same status, same served
interval) on requests without a Range header, on explicit ranges bytes=s-e
with 1 <= e < L, and on open-ended ranges both can parse; they diverge on
an explicit end of 0, on an end >= L, on suffix ranges, and on headers
without an equals sign. -/
theorem handlers_agree_on_fragment (env : ServerEnv) (fs : Fs) (reqPath : String)
    (content : List Nat)
    (hpath : translatePath env.token env.cwd reqPath ≠ "")
    (hdir : fs.isDir (translatePath env.token env.cwd reqPath) = false)
    (hfile : fs.file (translatePath env.token env.cwd reqPath) = some content) :
    ((doGetSrc env fs reqPath none).status = (doGetServe env fs reqPath none).status ∧
     (doGetSrc env fs reqPath none).contentRange =
       (doGetServe env fs reqPath none).contentRange) ∧
    (∀ hdr s e, parseRangeSrc hdr = some (some s, some e) → 1 ≤ e →
      e < content.length →
      (doGetSrc env fs reqPath (some hdr)).status =
        (doGetServe env fs reqPath (some hdr)).status ∧
      (doGetSrc env fs reqPath (some hdr)).contentRange =
        (doGetServe env fs reqPath (some hdr)).contentRange) ∧
    (∀ hdr s, parseRangeSrc hdr = some (some s, none) →
      parseRangeServe hdr = .ok s none →
      (doGetSrc env fs reqPath (some hdr)).status =
        (doGetServe env fs reqPath (some hdr)).status ∧
      (doGetSrc env fs reqPath (some hdr)).contentRange =
        (doGetServe env fs reqPath (some hdr)).contentRange) := by
  refine ⟨?_, ?_, ?_⟩
  · have hEqS := (doGetSrc_noRange env fs reqPath hpath).trans
      (srcServeFile_full env fs reqPath _ content none none hdir hfile rfl)
    have hEqV := (doGetServe_noRange env fs reqPath).trans
      (serveRest_full env fs reqPath _ content hpath hdir hfile)
    rw [hEqS, hEqV]
    exact ⟨rfl, rfl⟩
  · intro hdr s e hparse he1 heL
    have hserve := parseRange_src_serve_both hdr s e hparse
    by_cases hse : s ≤ e
    · have hEqS := (doGetSrc_serveFile env fs reqPath hdr _ _ hpath hparse).trans
        (srcServeFile_sat env fs reqPath _ content _ _ _ _ hdir hfile
          (resolveSrc_sat_both s e content.length hse heL))
      have hEqV := (doGetServe_serveRest env fs reqPath hdr s (some e) hserve).trans
        (serveRest_sat env fs reqPath _ content s (some e) _ _ _ hpath hdir hfile
          (resolveServe_some_both s e content.length he1 heL hse))
      rw [hEqS, hEqV]
      exact ⟨rfl, rfl⟩
    · have hes : e < s := by omega
      have hEqS := (doGetSrc_serveFile env fs reqPath hdr _ _ hpath hparse).trans
        (srcServeFile_unsat env fs reqPath _ content _ _ hdir hfile
          (resolveSrc_unsat_inv s e content.length hes))
      have hEqV := (doGetServe_serveRest env fs reqPath hdr s (some e) hserve).trans
        (serveRest_unsat env fs reqPath _ content s (some e) _ hpath hdir hfile
          (resolveServe_none_inv s e content.length he1 hes))
      rw [hEqS, hEqV]
      exact ⟨rfl, rfl⟩
  · intro hdr s hparse hserve
    by_cases hs : s < content.length
    · have hEqS := (doGetSrc_serveFile env fs reqPath hdr _ _ hpath hparse).trans
        (srcServeFile_sat env fs reqPath _ content _ _ _ _ hdir hfile
          (resolveSrc_sat_open s content.length hs))
      have hEqV := (doGetServe_serveRest env fs reqPath hdr s none hserve).trans
        (serveRest_sat env fs reqPath _ content s none _ _ _ hpath hdir hfile
          (resolveServe_open s content.length hs))
      rw [hEqS, hEqV]
      exact ⟨rfl, rfl⟩
    · have hLs : content.length ≤ s := by omega
      have hEqS := (doGetSrc_serveFile env fs reqPath hdr _ _ hpath hparse).trans
        (srcServeFile_unsat env fs reqPath _ content _ _ hdir hfile
          (resolveSrc_unsat_start s content.length none hLs))
      have hEqV := (doGetServe_serveRest env fs reqPath hdr s none hserve).trans
        (serveRest_unsat env fs reqPath _ content s none _ hpath hdir hfile
          (resolveServe_none_start s content.length none hLs))
      rw [hEqS, hEqV]
      exact ⟨rfl, rfl⟩

/-- C1: the path authorizer does not normalize dot-dot segments, so for a
request whose decoded remainder contains a dot-dot segment the translated
path denotes a filesystem location outside the public_html root (here with
token sEcReT and working directory /srv), both for a literal and for a
percent-encoded traversal; an ordinary request stays confined. -/
theorem translate_path_dotdot_escape :
    translatePath "sEcReT" "/srv" "/sEcReT/../private/key.pem" =
      "/srv/public_html/../private/key.pem" ∧
    withinRootB (pyJoin2 "/srv" "public_html")
      (translatePath "sEcReT" "/srv" "/sEcReT/../private/key.pem") = false ∧
    translatePath "sEcReT" "/srv" "/sEcReT/%2e%2e/private/key.pem" =
      "/srv/public_html/../private/key.pem" ∧
    withinRootB (pyJoin2 "/srv" "resources")
      (translatePath "sEcReT" "/srv" "/sEcReT/resources/..%2f..%2fetc%2fshadow") = false ∧
    withinRootB (pyJoin2 "/srv" "public_html")
      (translatePath "sEcReT" "/srv" "/sEcReT/docs/a.txt") = true := by
  decide

/-- C2 (counterexample): on a 2-byte file the legacy handler answers
Range: bytes=0-0 with 206 but Content-Range bytes 0-1/2 and a 2-byte body,
not the claimed single byte [0,0]. -/
theorem legacy_end_zero_counterexample :
    (doGetServe env0 fs0 "/sEcReT/f" (some "bytes=0-0")).status = 206 ∧
    (doGetServe env0 fs0 "/sEcReT/f" (some "bytes=0-0")).contentRange =
      some (0, 1, 2) ∧
    (doGetServe env0 fs0 "/sEcReT/f" (some "bytes=0-0")).body = [10, 20] ∧
    (doGetServe env0 fs0 "/sEcReT/f" (some "bytes=0-0")).contentRange ≠
      some (0, 0, 2) := by
  decide

/-- C3 (counterexample): the current handler answers Range: bytes=0-5 on a
2-byte file with 416, not with a 206 covering [0, 1] as the claim states. -/
theorem src_no_clamp_counterexample :
    (doGetSrc env0 fs0 "/sEcReT/f" (some "bytes=0-5")).status = 416 ∧
    (doGetSrc env0 fs0 "/sEcReT/f" (some "bytes=0-5")).status ≠ 206 ∧
    (doGetSrc env0 fs0 "/sEcReT/f" (some "bytes=0-5")).body = [] := by
  decide

/-- C4 (counterexample): the legacy handler answers the suffix form
Range: bytes=-1 (K = 1 <= L = 2) with 400 instead of serving the last byte,
and the current handler answers bytes=-0 (K = 0 <= L) with 416, not 206. -/
theorem legacy_suffix_counterexample :
    (doGetServe env0 fs0 "/sEcReT/f" (some "bytes=-1")).status = 400 ∧
    (doGetServe env0 fs0 "/sEcReT/f" (some "bytes=-1")).status ≠ 206 ∧
    (doGetSrc env0 fs0 "/sEcReT/f" (some "bytes=-0")).status = 416 := by
  decide

/-- C5 (counterexample): on an 8-byte file the legacy handler serves
Range: bytes=5-0 as 206 over [5, 7] instead of answering 416, because the
explicit end 0 is falsy and treated as absent. -/
theorem legacy_inverted_zero_counterexample :
    (doGetServe env0 fs0 "/sEcReT/g" (some "bytes=5-0")).status = 206 ∧
    (doGetServe env0 fs0 "/sEcReT/g" (some "bytes=5-0")).contentRange =
      some (5, 7, 8) ∧
    (doGetServe env0 fs0 "/sEcReT/g" (some "bytes=5-0")).status ≠ 416 := by
  decide

/-- C6 (counterexample): the header bytes=- (both bounds missing) is parsed
by the current handler as a pair of absent bounds, and the request is served
as a full 200 transfer with filesystem access and two log events, not
answered 400. -/
theorem dash_only_range_counterexample :
    parseRangeSrc "bytes=-" = some (none, none) ∧
    (doGetSrc env0 fs0 "/sEcReT/f" (some "bytes=-")).status = 200 ∧
    (doGetSrc env0 fs0 "/sEcReT/f" (some "bytes=-")).status ≠ 400 ∧
    (doGetSrc env0 fs0 "/sEcReT/f" (some "bytes=-")).fsTouched = true ∧
    (doGetSrc env0 fs0 "/sEcReT/f" (some "bytes=-")).logs.length = 2 := by
  decide

/-- C7: the capability token is written to the transfer log: the range-start
event records the raw request path (self.path), which contains the token,
while the range-complete event records the translated filesystem path. -/
theorem range_start_logs_token :
    (doGetSrc env0 fs0 "/sEcReT/f" (some "bytes=0-1")).logs.map LogEvent.path =
      ["/sEcReT/f", "/srv/public_html/f"] ∧
    strContains "/sEcReT/f" env0.token = true ∧
    strContains "/srv/public_html/f" env0.token = false := by
  decide

/-- C8: the responses to a wrong-token request and to a correct-token
request for a missing resource are distinguishable: with a malformed Range
header the wrong-token request is answered 302 (the path check runs first)
while the correct-token request is answered 400, a token-guessing oracle. -/
theorem token_oracle_malformed_range :
    (doGetSrc env0 fs0 "/wrongtoken/f.txt" (some "garbage")).status = 302 ∧
    (doGetSrc env0 fs0 "/sEcReT/nosuch.txt" (some "garbage")).status = 400 ∧
    (doGetSrc env0 fs0 "/wrongtoken/f.txt" (some "garbage")).status ≠
      (doGetSrc env0 fs0 "/sEcReT/nosuch.txt" (some "garbage")).status := by
  decide

/-- C10 (counterexample): on a 2-byte file the two handler versions answer
the same request Range: bytes=0-5 differently: 416 from the current handler
and 206 from the legacy one. -/
theorem handlers_divergence_counterexample :
    (doGetSrc env0 fs0 "/sEcReT/f" (some "bytes=0-5")).status = 416 ∧
    (doGetServe env0 fs0 "/sEcReT/f" (some "bytes=0-5")).status = 206 ∧
    (doGetSrc env0 fs0 "/sEcReT/f" (some "bytes=0-5")).status ≠
      (doGetServe env0 fs0 "/sEcReT/f" (some "bytes=0-5")).status := by
  decide

/-- Witness for C2: Range: bytes=2-5 on an 8-byte file is served 206 with
the 4-byte slice by both handlers. -/
theorem range_exact_slice_witness :
    (doGetSrc env0 fs0 "/sEcReT/g" (some "bytes=2-5")).status = 206 ∧
    (doGetSrc env0 fs0 "/sEcReT/g" (some "bytes=2-5")).body = [2, 3, 4, 5] ∧
    (doGetServe env0 fs0 "/sEcReT/g" (some "bytes=2-5")).status = 206 := by
  have h := range_exact_slice env0 fs0 "/sEcReT/g" "bytes=2-5"
    [0, 1, 2, 3, 4, 5, 6, 7] 2 5
    (by decide) (by decide) (by decide) (by decide) (by decide) (by decide)
  refine ⟨h.1.1, ?_, (h.2 (by decide)).1⟩
  have hb := h.1.2.2.2.1
  rw [hb]
  decide

/-- Witness for C3: Range: bytes=0-5 on a 2-byte file. -/
theorem end_ge_length_behavior_witness :
    (doGetSrc env0 fs0 "/sEcReT/f" (some "bytes=0-5")).status = 416 ∧
    (doGetServe env0 fs0 "/sEcReT/f" (some "bytes=0-5")).contentRange =
      some (0, 1, 2) := by
  have h := end_ge_length_behavior env0 fs0 "/sEcReT/f" "bytes=0-5" [10, 20] 0 5
    (by decide) (by decide) (by decide) (by decide) (by decide) (by decide)
  exact ⟨h.1, h.2.2⟩

/-- Witness for C4: bytes=-3 and bytes=4- on an 8-byte file. -/
theorem suffix_and_open_ranges_witness :
    (doGetSrc env0 fs0 "/sEcReT/g" (some "bytes=-3")).contentRange =
      some (5, 7, 8) ∧
    (doGetSrc env0 fs0 "/sEcReT/g" (some "bytes=4-")).contentRange =
      some (4, 7, 8) ∧
    (doGetServe env0 fs0 "/sEcReT/g" (some "bytes=-3")).status = 400 ∧
    (doGetServe env0 fs0 "/sEcReT/g" (some "bytes=4-")).status = 206 := by
  have h := suffix_and_open_ranges env0 fs0 "/sEcReT/g" [0, 1, 2, 3, 4, 5, 6, 7]
    (by decide) (by decide) (by decide)
  refine ⟨?_, ?_, ?_, ?_⟩
  · exact (h.1 "bytes=-3" 3 (by decide) (by decide) (by decide)).2.1
  · exact (h.2.1 "bytes=4-" 4 (by decide) (by decide)).2.1
  · exact (h.2.2.1 "bytes=-3" 3 (by decide)).2
  · exact (h.2.2.2 "bytes=4-" 4 (by decide) (by decide)).1

/-- Witness for C5: bytes=5-1 (inverted) and bytes=9- (start past the end)
on a 2-byte file are answered 416 by both handlers. -/
theorem unsatisfiable_ranges_416_witness :
    (doGetSrc env0 fs0 "/sEcReT/f" (some "bytes=5-1")).status = 416 ∧
    (doGetSrc env0 fs0 "/sEcReT/f" (some "bytes=9-")).status = 416 ∧
    (doGetServe env0 fs0 "/sEcReT/f" (some "bytes=5-1")).status = 416 ∧
    (doGetServe env0 fs0 "/sEcReT/f" (some "bytes=9-")).status = 416 := by
  have h := unsatisfiable_ranges_416 env0 fs0 "/sEcReT/f" [10, 20]
    (by decide) (by decide) (by decide)
  exact ⟨(h.1 "bytes=5-1" 5 1 (by decide) (by decide)).1,
         (h.2.1 "bytes=9-" 9 none (by decide) (by decide)).1,
         (h.2.2.1 "bytes=5-1" 5 1 (by decide) (by decide) (by decide)).1,
         (h.2.2.2 "bytes=9-" 9 none (by decide) (by decide)).1⟩

/-- Witness for C6: a non-numeric range and a header without an equals sign
are answered 400 by the current handler; the legacy handler answers its own
ValueError cases 400 and crashes on a header without an equals sign. -/
theorem malformed_range_400_witness :
    (doGetSrc env0 fs0 "/sEcReT/f" (some "bytes=a-b")).status = 400 ∧
    (doGetSrc env0 fs0 "/sEcReT/f" (some "invalid_range_format")).status = 400 ∧
    (doGetServe env0 fs0 "/sEcReT/f" (some "bytes=-5")).status = 400 ∧
    (doGetServe env0 fs0 "/sEcReT/f" (some "invalid")).crashed = true := by
  have h := malformed_range_400 env0 fs0 "/sEcReT/f" (by decide)
  exact ⟨(h.1 "bytes=a-b" (by decide)).1,
         (h.1 "invalid_range_format" (by decide)).1,
         (h.2.1 "bytes=-5" (by decide)).1,
         h.2.2 "invalid" (by decide)⟩

/-- Witness for C10: no-range, explicit and open-ended requests on which
the two handlers agree. -/
theorem handlers_agree_on_fragment_witness :
    (doGetSrc env0 fs0 "/sEcReT/g" none).status =
      (doGetServe env0 fs0 "/sEcReT/g" none).status ∧
    (doGetSrc env0 fs0 "/sEcReT/g" (some "bytes=1-6")).contentRange =
      (doGetServe env0 fs0 "/sEcReT/g" (some "bytes=1-6")).contentRange ∧
    (doGetSrc env0 fs0 "/sEcReT/g" (some "bytes=3-")).status =
      (doGetServe env0 fs0 "/sEcReT/g" (some "bytes=3-")).status := by
  have h := handlers_agree_on_fragment env0 fs0 "/sEcReT/g" [0, 1, 2, 3, 4, 5, 6, 7]
    (by decide) (by decide) (by decide)
  exact ⟨h.1.1,
         (h.2.1 "bytes=1-6" 1 6 (by decide) (by decide) (by decide)).2,
         (h.2.2 "bytes=3-" 3 (by decide) (by decide)).1⟩

end Server

namespace TransferLogModel

/-- C9: for every N and every complete interleaving of N logging threads,
each running acquire-insert-commit-release on the shared connection, the
store ends with exactly N rows, without duplication or loss: the committed
rows are a permutation of the N submitted ones. -/
theorem log_serialization (N : Nat) (tr : List (Nat × LAct)) (s2 : LogDb)
    (hproj : ∀ t, t < N → proj tr t = prog)
    (hids : ∀ a ∈ tr, a.1 < N)
    (hrun : run initDb tr = some s2) :
    s2.rows.length = N ∧ s2.rows.Nodup ∧ List.Perm s2.rows (List.range N) := by
  have houtside : ∀ t, N ≤ t → proj tr t = [] := by
    intro t hNt
    have hfil : tr.filter (fun a => a.1 == t) = [] := by
      refine List.filter_eq_nil_iff.mpr ?_
      intro a ha
      have h1 := hids a ha
      simp only [beq_iff_eq]
      omega
    simp [proj, hfil]
  have hInv0 : LogInv N (proj tr) initDb := by
    refine ⟨houtside, ?_, ?_, List.nodup_nil, ?_⟩
    · intro _
      refine ⟨rfl, ?_⟩
      intro u
      by_cases h : u < N
      · exact Or.inl (hproj u h)
      · exact Or.inr (houtside u (Nat.le_of_not_lt h))
    · intro u h
      exact absurd h (by simp [initDb])
    · intro x
      constructor
      · intro h
        exact absurd h (by simp [initDb])
      · rintro ⟨hxN, hc | hc⟩
        · rw [hproj x hxN] at hc; exact absurd hc (by decide)
        · rw [hproj x hxN] at hc; exact absurd hc (by decide)
  have hI := run_inv N tr initDb s2 hInv0 hrun
  have hmem : ∀ x, x ∈ s2.rows ↔ x ∈ List.range N := by
    intro x
    rw [hI.rowsMem x]
    simp [List.mem_range]
  have hperm : List.Perm s2.rows (List.range N) :=
    (List.perm_ext_iff_of_nodup hI.rowsNodup (List.nodup_range N)).mpr hmem
  exact ⟨hperm.length_eq.trans (List.length_range N), hI.rowsNodup, hperm⟩

/-- Witness for C9: a complete two-thread interleaving ends with exactly the
two rows. -/
theorem log_serialization_witness :
    (LogDb.mk none none [0, 1]).rows.length = 2 ∧
    (LogDb.mk none none [0, 1]).rows.Nodup := by
  have h := log_serialization 2 wTrace (LogDb.mk none none [0, 1])
    (by decide) (by decide) (by decide)
  exact ⟨h.1, h.2.1⟩

end TransferLogModel
